import Mathlib

/-!
Verification development for the gin-saas multi-tenant backend.

The Go source is shallowly embedded: each tenant namespace is a record of
its relational tables (groups, permissions, group_permissions, user_groups),
repository functions are translated from the SQL they execute against the
DDL in the source (including the primary-key and foreign-key constraints of
group_permissions and the ON DELETE CASCADE), and the service layer follows
src/src/general/service/group.go statement by statement.  The token service
(AuthService) is embedded with a symbolic model of HMAC signatures: a
signature is the pair of the signing secret and the signed claims, and
verification is equality with the expected pair.  DBManager.CreateSchema is
embedded as a state transformer over an oracle that decides which of its
fallible steps succeed, tracking schema existence, helper-routine existence
and the number of acquired-but-unreleased pool connections.
-/

namespace Saas

/-- domain.Permission from the general domain package: id and name
(created_at is omitted: no control flow in the embedded code reads it). -/
structure Permission where
  id : Nat
  name : String
deriving Repr, DecidableEq

/-- A row of the groups table (created_at and updated_at omitted: no embedded
control flow reads them). -/
structure Group where
  id : Nat
  name : String
deriving Repr, DecidableEq

/-- One tenant namespace: the tables created by CreateGroupPermissionTable and
CreateUserTable.  groupPermissions holds (group_id, permission_id) pairs with
composite primary key and foreign keys to both sides; userGroups holds
(user_id, group_id) pairs of the user_groups join table. -/
structure DB where
  groups : List Group
  permissions : List Permission
  groupPermissions : List (Nat × Nat)
  userGroups : List (Nat × Nat)
deriving Repr, DecidableEq

/-- domain.DefaultPermissions: the fixed list of system-permission names. -/
def DefaultPermissions : List String :=
  [ "user_view", "user_create", "user_update", "user_delete",
    "group_view", "group_create", "group_update", "group_delete",
    "permission_view", "permission_create", "permission_update", "permission_delete" ]

/-- Error taxonomy of the service layer, mapping each fmt.Errorf site to the
error kind the spec assigns to it in section 7. -/
inductive SvcError where
  | notFound (msg : String)
  | protectedResource (msg : String)
  | txFailure (msg : String)
  | invalidArgument (msg : String)
deriving Repr, DecidableEq

namespace groupRepository

/-- groupRepository.GetGroup: SELECT from groups WHERE id = $1 (first row). -/
def GetGroup (db : DB) (id : Nat) : Option Group :=
  db.groups.find? (fun g => g.id == id)

/-- groupRepository.GetPermission: SELECT from permissions WHERE id = $1. -/
def GetPermission (db : DB) (id : Nat) : Option Permission :=
  db.permissions.find? (fun p => p.id == id)

/-- groupRepository.GetPermissionByName: SELECT from permissions WHERE name = $1. -/
def GetPermissionByName (db : DB) (name : String) : Option Permission :=
  db.permissions.find? (fun p => p.name == name)

/-- groupRepository.RemovePermissionFromGroup: DELETE the pair; if
RowsAffected is zero the repository returns the error
"permission not found in group". -/
def RemovePermissionFromGroup (db : DB) (groupID permissionID : Nat) : Except SvcError DB :=
  let remaining := db.groupPermissions.filter
    (fun gp => !(gp.1 == groupID && gp.2 == permissionID))
  if remaining.length == db.groupPermissions.length then
    .error (.notFound "permission not found in group")
  else
    .ok { db with groupPermissions := remaining }

/-- Boolean duplicate test used to express the composite primary key of
group_permissions: a bulk INSERT of the same (group_id, permission_id) pair
twice violates the key and aborts the transaction. -/
def nodupB : List Nat → Bool
  | [] => true
  | x :: xs => !xs.contains x && nodupB xs

/-- groupRepository.SetGroupPermissions: a transaction that clears the rows of
the group and bulk-inserts the given pairs.  The INSERT commits only when the
constraints of group_permissions hold: the group exists (FOREIGN KEY group_id),
every permission id exists (FOREIGN KEY permission_id), and the inserted pairs
are pairwise distinct (composite PRIMARY KEY).  On any violation the deferred
rollback leaves the state unchanged and the error propagates. -/
def SetGroupPermissions (db : DB) (groupID : Nat) (permissionIDs : List Nat) :
    Except SvcError DB :=
  if db.groups.any (fun g => g.id == groupID)
      && permissionIDs.all (fun p => db.permissions.any (fun q => q.id == p))
      && nodupB permissionIDs then
    .ok { db with groupPermissions :=
      db.groupPermissions.filter (fun gp => !(gp.1 == groupID))
        ++ permissionIDs.map (fun p => (groupID, p)) }
  else
    .error (.txFailure "failed to set group permissions")

/-- groupRepository.DeletePermission: DELETE FROM permissions WHERE id = $1;
RowsAffected zero yields "permission not found".  The schema declares
ON DELETE CASCADE on group_permissions.permission_id, so referencing rows are
removed with the permission. -/
def DeletePermission (db : DB) (id : Nat) : Except SvcError DB :=
  if db.permissions.any (fun p => p.id == id) then
    .ok { db with
      permissions := db.permissions.filter (fun p => !(p.id == id)),
      groupPermissions := db.groupPermissions.filter (fun gp => !(gp.2 == id)) }
  else
    .error (.notFound "permission not found")

end groupRepository

namespace groupService

/-- groupService.RemovePermissionFromGroup: loads the group; when its name is
exactly "admin" it loads the permission and rejects the removal of any
permission whose name is in DefaultPermissions; every other case delegates to
the repository DELETE. -/
def RemovePermissionFromGroup (db : DB) (groupId permissionId : Nat) : Except SvcError DB :=
  match groupRepository.GetGroup db groupId with
  | none => .error (.notFound "failed to get group details")
  | some group =>
    if group.name == "admin" then
      match groupRepository.GetPermission db permissionId with
      | none => .error (.notFound "failed to get permission details")
      | some permission =>
        if DefaultPermissions.contains permission.name then
          .error (.protectedResource
            ("cannot remove system permission " ++ permission.name ++ " from admin group"))
        else
          groupRepository.RemovePermissionFromGroup db groupId permissionId
    else
      groupRepository.RemovePermissionFromGroup db groupId permissionId

/-- One iteration of the admin auto-union loop of
groupService.SetGroupPermissions: resolve a system-permission name and append
its id when absent; an unresolved name is skipped with only a log line. -/
def adminStep (db : DB) (acc : List Nat) (sysPerm : String) : List Nat :=
  match groupRepository.GetPermissionByName db sysPerm with
  | none => acc
  | some perm => if acc.contains perm.id then acc else acc ++ [perm.id]

/-- groupService.SetGroupPermissions: loads the group; when its name is exactly
"admin" the caller-supplied id list is first extended with every resolvable
system-permission id; then the repository transactional replace runs. -/
def SetGroupPermissions (db : DB) (groupId : Nat) (permissionIds : List Nat) :
    Except SvcError DB :=
  match groupRepository.GetGroup db groupId with
  | none => .error (.notFound "failed to get group details")
  | some group =>
    let pids := if group.name == "admin"
      then DefaultPermissions.foldl (adminStep db) permissionIds
      else permissionIds
    groupRepository.SetGroupPermissions db groupId pids

/-- groupService.DeletePermission: loads the permission and rejects the
deletion when its name is in DefaultPermissions; otherwise delegates to the
repository DELETE. -/
def DeletePermission (db : DB) (id : Nat) : Except SvcError DB :=
  match groupRepository.GetPermission db id with
  | none => .error (.notFound "failed to get permission details")
  | some permission =>
    if DefaultPermissions.contains permission.name then
      .error (.protectedResource ("cannot delete system permission " ++ permission.name))
    else
      groupRepository.DeletePermission db id

/-- Modelled from the spec: the repository implementations of
UserHasPermission and UserHasPermissionByName are absent from src (the
GroupRepository interface and the repository file do not contain them; only
the groupService callers do).  Per the spec, the check is true iff some group
the user belongs to is linked to the permission, exactly one level deep
(user to group to permission), with no negative permissions. -/
def userHasPermissionRepo (db : DB) (userId permissionId : Nat) : Bool :=
  db.userGroups.any (fun ug => ug.1 == userId &&
    db.groupPermissions.any (fun gp => gp.1 == ug.2 && gp.2 == permissionId))

/-- Modelled from the spec: name-keyed variant of userHasPermissionRepo; the
permission is identified by resolving the name within the tenant namespace. -/
def userHasPermissionByNameRepo (db : DB) (userId : Nat) (permissionName : String) : Bool :=
  db.userGroups.any (fun ug => ug.1 == userId &&
    db.groupPermissions.any (fun gp => gp.1 == ug.2 &&
      db.permissions.any (fun p => p.id == gp.2 && p.name == permissionName)))

/-- groupService.UserHasPermission: delegates to the repository check. -/
def UserHasPermission (db : DB) (userId permissionId : Nat) : Except SvcError Bool :=
  .ok (userHasPermissionRepo db userId permissionId)

/-- groupService.UserHasPermissionByName: rejects an empty name, then
delegates to the repository check. -/
def UserHasPermissionByName (db : DB) (userId : Nat) (permissionName : String) :
    Except SvcError Bool :=
  if permissionName == "" then .error (.invalidArgument "permission name is required")
  else .ok (userHasPermissionByNameRepo db userId permissionName)

end groupService

/-- bootstrap.Config.PublicJWTConfig: process-wide token configuration.
Expiry values are durations in the same integer time unit as the model
timestamps. -/
structure PublicJWTConfig where
  AccessSecretKey : String
  AccessIssuer : String
  AccessExpire : Int
  RefreshSecretKey : String
  RefreshIssuer : String
  RefreshExpire : Int
deriving Repr, DecidableEq

/-- The claim payload shared by domain.AccessJwtClaims and
domain.RefreshJwtClaims: user id, tenant id and the registered claims the
source sets (issuer, issued-at, expires-at, not-before). -/
structure JwtClaims where
  UserID : Int
  TenantID : Int
  Issuer : String
  IssuedAt : Int
  ExpiresAt : Int
  NotBefore : Int
deriving Repr, DecidableEq

/-- Signing algorithm recorded in the token header; the validators accept only
the HMAC family and the source always signs with HS256. -/
inductive Alg where
  | HS256
  | RS256
deriving Repr, DecidableEq

/-- The keyfunc check of both validators: token.Method must be an HMAC method. -/
def Alg.isHMAC : Alg → Bool
  | .HS256 => true
  | .RS256 => false

/-- A signed token in the symbolic HMAC model: the signature is the pair of
the signing secret and the signed claims, and signature verification is
equality with the pair recomputed from the expected secret. -/
structure SignedToken where
  alg : Alg
  claims : JwtClaims
  sig : String × JwtClaims
deriving Repr, DecidableEq

/-- Produce an HS256 token over the given claims with the given secret. -/
def signHS256 (secret : String) (c : JwtClaims) : SignedToken :=
  { alg := .HS256, claims := c, sig := (secret, c) }

/-- Token validation outcomes of jwt.ParseWithClaims plus the issuer check the
source performs afterwards. -/
inductive TokenErr where
  | badMethod
  | badSignature
  | expired
  | notYetValid
  | wrongIssuer
deriving Repr, DecidableEq

namespace AuthService

/-- AuthService.generateAccessToken: HS256 token carrying (userID, tenantID)
with the access issuer, issued now, expiring now plus AccessExpire. -/
def generateAccessToken (cfg : PublicJWTConfig) (now : Int) (userID tenantID : Int) :
    SignedToken :=
  signHS256 cfg.AccessSecretKey
    { UserID := userID, TenantID := tenantID, Issuer := cfg.AccessIssuer,
      IssuedAt := now, ExpiresAt := now + cfg.AccessExpire, NotBefore := now }

/-- AuthService.generateRefreshToken: as the access token but with the refresh
issuer, refresh secret and refresh lifetime. -/
def generateRefreshToken (cfg : PublicJWTConfig) (now : Int) (userID tenantID : Int) :
    SignedToken :=
  signHS256 cfg.RefreshSecretKey
    { UserID := userID, TenantID := tenantID, Issuer := cfg.RefreshIssuer,
      IssuedAt := now, ExpiresAt := now + cfg.RefreshExpire, NotBefore := now }

/-- AuthService.ValidateAccessToken: jwt.ParseWithClaims checks the signing
method is HMAC, verifies the signature against the access secret, and checks
the validity window (valid while notBefore is not after now and now is before
expiresAt); the source then requires the issuer claim to equal the configured
access issuer exactly. -/
def ValidateAccessToken (cfg : PublicJWTConfig) (now : Int) (tok : SignedToken) :
    Except TokenErr JwtClaims :=
  if !tok.alg.isHMAC then .error .badMethod
  else if tok.sig ≠ (cfg.AccessSecretKey, tok.claims) then .error .badSignature
  else if tok.claims.ExpiresAt ≤ now then .error .expired
  else if now < tok.claims.NotBefore then .error .notYetValid
  else if tok.claims.Issuer ≠ cfg.AccessIssuer then .error .wrongIssuer
  else .ok tok.claims

/-- AuthService.ValidateRefreshToken: symmetric to ValidateAccessToken against
the refresh secret and refresh issuer. -/
def ValidateRefreshToken (cfg : PublicJWTConfig) (now : Int) (tok : SignedToken) :
    Except TokenErr JwtClaims :=
  if !tok.alg.isHMAC then .error .badMethod
  else if tok.sig ≠ (cfg.RefreshSecretKey, tok.claims) then .error .badSignature
  else if tok.claims.ExpiresAt ≤ now then .error .expired
  else if now < tok.claims.NotBefore then .error .notYetValid
  else if tok.claims.Issuer ≠ cfg.RefreshIssuer then .error .wrongIssuer
  else .ok tok.claims

end AuthService

namespace DBManager

/-- Observable provisioning state: which namespaces exist, which of them hold
the update_column helper routine, and how many pool connections are acquired
and not yet released. -/
structure SchemaState where
  schemas : List String
  routines : List String
  openConns : Nat
deriving Repr, DecidableEq

/-- Outcome oracle for the fallible steps of DBManager.CreateSchema, in source
order: pool.Acquire, the CREATE SCHEMA IF NOT EXISTS statement, the
SET search_path statement, conn.Begin, the CREATE OR REPLACE FUNCTION
statement inside the transaction, and tx.Commit. -/
structure StepOracle where
  acquireOk : Bool
  createSchemaOk : Bool
  setPathOk : Bool
  beginOk : Bool
  execRoutineOk : Bool
  commitOk : Bool
deriving Repr, DecidableEq

/-- Result of DBManager.CreateSchema: on ok the acquired connection is handed
to the caller, which must release it; on err only the error is returned. -/
inductive CreateSchemaResult where
  | ok
  | err (msg : String)
deriving Repr, DecidableEq

/-- Insert a name into a list when absent (CREATE ... IF NOT EXISTS and
CREATE OR REPLACE are both idempotent). -/
def insertIfAbsent (s : String) (l : List String) : List String :=
  if l.contains s then l else s :: l

/-- DBManager.CreateSchema, statement by statement.  The CREATE SCHEMA
statement runs and commits before the transaction begins; the transaction
wraps only the helper-routine creation, and its deferred rollback undoes the
routine but never the schema.  The two error returns after conn.Begin (the
routine statement failing and the commit failing) return without calling
conn.Release, so on those paths the connection stays acquired. -/
def CreateSchema (st : SchemaState) (o : StepOracle) (schema : String) :
    CreateSchemaResult × SchemaState :=
  if !o.acquireOk then (.err "failed to acquire connection", st)
  else
    let st1 : SchemaState := { st with openConns := st.openConns + 1 }
    if !o.createSchemaOk then
      (.err "failed to create schema", { st1 with openConns := st1.openConns - 1 })
    else
      let st2 : SchemaState := { st1 with schemas := insertIfAbsent schema st1.schemas }
      if !o.setPathOk then
        (.err "failed to set search_path", { st2 with openConns := st2.openConns - 1 })
      else if !o.beginOk then
        (.err "failed to begin transaction", { st2 with openConns := st2.openConns - 1 })
      else if !o.execRoutineOk then
        (.err "failed to create table", st2)
      else if !o.commitOk then
        (.err "failed to commit transaction", st2)
      else
        (.ok, { st2 with routines := insertIfAbsent schema st2.routines })

end DBManager

/-- Decidable equality of results, so concrete runs can be settled by decide. -/
instance {ε α : Type} [DecidableEq ε] [DecidableEq α] : DecidableEq (Except ε α)
  | .ok a, .ok b =>
    if h : a = b then .isTrue (h ▸ rfl) else .isFalse (fun hc => h (Except.ok.inj hc))
  | .error a, .error b =>
    if h : a = b then .isTrue (h ▸ rfl) else .isFalse (fun hc => h (Except.error.inj hc))
  | .ok _, .error _ => .isFalse (fun hc => Except.noConfusion hc)
  | .error _, .ok _ => .isFalse (fun hc => Except.noConfusion hc)

/-- The twelve system permissions of DefaultPermissions materialized in a
tenant namespace with ids 1 through 12. -/
def sysPermissions : List Permission :=
  [ ⟨1, "user_view"⟩, ⟨2, "user_create"⟩, ⟨3, "user_update"⟩, ⟨4, "user_delete"⟩,
    ⟨5, "group_view"⟩, ⟨6, "group_create"⟩, ⟨7, "group_update"⟩, ⟨8, "group_delete"⟩,
    ⟨9, "permission_view"⟩, ⟨10, "permission_create"⟩, ⟨11, "permission_update"⟩,
    ⟨12, "permission_delete"⟩ ]

/-- A provisioned tenant namespace holding the admin group (id 1) that has all
twelve system permissions. -/
def dbAdmin : DB :=
  { groups := [⟨1, "admin"⟩],
    permissions := sysPermissions,
    groupPermissions := sysPermissions.map (fun p => (1, p.id)),
    userGroups := [] }

/-- A namespace with a non-admin group (id 2, name dev) and one system-named
permission (id 1), where the pair (2, 1) is not granted. -/
def dbDev : DB :=
  { groups := [⟨2, "dev"⟩],
    permissions := sysPermissions,
    groupPermissions := [],
    userGroups := [] }

/-- A namespace holding the system permissions plus a non-system permission
(id 13, custom_report) that the admin group references. -/
def dbDel : DB :=
  { groups := [⟨1, "admin"⟩],
    permissions := sysPermissions ++ [⟨13, "custom_report"⟩],
    groupPermissions := [(1, 13)],
    userGroups := [] }

/-- A namespace where user 7 belongs to group 2, which holds permission 5. -/
def dbUser : DB :=
  { groups := [⟨2, "dev"⟩],
    permissions := [⟨5, "user_view"⟩],
    groupPermissions := [(2, 5)],
    userGroups := [(7, 2)] }

/-- A namespace with a group named Admin (capital A), holding system
permission 1 via the pair (2, 1). -/
def dbCaps : DB :=
  { groups := [⟨2, "Admin"⟩],
    permissions := sysPermissions,
    groupPermissions := [(2, 1)],
    userGroups := [] }

/-- Concrete token configuration with distinct secrets and issuers. -/
def cfgTok : PublicJWTConfig :=
  { AccessSecretKey := "access-secret", AccessIssuer := "saas-access", AccessExpire := 900,
    RefreshSecretKey := "refresh-secret", RefreshIssuer := "saas-refresh",
    RefreshExpire := 86400 }

/-- Token configuration whose access lifetime is one second (one model tick). -/
def cfgOneSecond : PublicJWTConfig :=
  { AccessSecretKey := "access-secret", AccessIssuer := "saas-access", AccessExpire := 1,
    RefreshSecretKey := "refresh-secret", RefreshIssuer := "saas-refresh",
    RefreshExpire := 10 }

/-- Fresh provisioning state: no namespaces, no routines, no held connections. -/
def freshState : DBManager.SchemaState :=
  { schemas := [], routines := [], openConns := 0 }

/-- Oracle where every step succeeds except the helper-routine statement
inside the transaction. -/
def routineFails : DBManager.StepOracle :=
  { acquireOk := true, createSchemaOk := true, setPathOk := true, beginOk := true,
    execRoutineOk := false, commitOk := true }

theorem getGroup_mem (db : DB) (id : Nat) (g : Group)
    (h : groupRepository.GetGroup db id = some g) : g ∈ db.groups ∧ g.id = id := by
  refine ⟨List.mem_of_find?_eq_some h, ?_⟩
  simpa using List.find?_some h

theorem getPermission_mem (db : DB) (id : Nat) (perm : Permission)
    (h : groupRepository.GetPermission db id = some perm) :
    perm ∈ db.permissions ∧ perm.id = id := by
  refine ⟨List.mem_of_find?_eq_some h, ?_⟩
  simpa using List.find?_some h

theorem getPermissionByName_mem (db : DB) (n : String) (perm : Permission)
    (h : groupRepository.GetPermissionByName db n = some perm) :
    perm ∈ db.permissions ∧ perm.name = n := by
  refine ⟨List.mem_of_find?_eq_some h, ?_⟩
  simpa using List.find?_some h

theorem removeRepo_spec (db : DB) (g p : Nat) :
    groupRepository.RemovePermissionFromGroup db g p =
      if (g, p) ∈ db.groupPermissions then
        Except.ok { db with groupPermissions :=
          db.groupPermissions.filter (fun gp => !(gp.1 == g && gp.2 == p)) }
      else Except.error (SvcError.notFound "permission not found in group") := by
  simp only [groupRepository.RemovePermissionFromGroup]
  by_cases hmem : (g, p) ∈ db.groupPermissions
  · rw [if_pos hmem]
    have hlt : (db.groupPermissions.filter (fun gp => !(gp.1 == g && gp.2 == p))).length
        < db.groupPermissions.length := by
      apply List.length_filter_lt_length_iff_exists.mpr
      exact ⟨(g, p), hmem, by simp⟩
    have hne : ((db.groupPermissions.filter
        (fun gp => !(gp.1 == g && gp.2 == p))).length
          == db.groupPermissions.length) = false := by
      apply beq_eq_false_iff_ne.mpr
      omega
    simp [hne, hmem]
  · rw [if_neg hmem]
    have hall : ∀ gp ∈ db.groupPermissions, (!(gp.1 == g && gp.2 == p)) = true := by
      intro gp hgp
      have hne : gp ≠ (g, p) := fun he => hmem (he ▸ hgp)
      simp only [Bool.not_eq_true', Bool.and_eq_false_iff, beq_eq_false_iff_ne]
      by_cases h1 : gp.1 = g
      · refine Or.inr (fun h2 => hne ?_)
        cases gp
        simp_all
      · exact Or.inl h1
    have hlen : (db.groupPermissions.filter
        (fun gp => !(gp.1 == g && gp.2 == p))).length = db.groupPermissions.length :=
      List.filter_length_eq_length.mpr hall
    simp [hlen, hmem]

theorem nodupB_iff (l : List Nat) : groupRepository.nodupB l = true ↔ l.Nodup := by
  induction l with
  | nil => simp [groupRepository.nodupB]
  | cons x xs ih =>
    simp [groupRepository.nodupB, ih, List.nodup_cons, List.elem_iff]

theorem setRepo_ok (db : DB) (g : Nat) (pids : List Nat)
    (hgrp : ∃ gr ∈ db.groups, gr.id = g)
    (hall : ∀ p ∈ pids, ∃ q ∈ db.permissions, q.id = p)
    (hnd : pids.Nodup) :
    groupRepository.SetGroupPermissions db g pids =
      Except.ok { db with groupPermissions :=
        (db.groupPermissions.filter (fun gp => !(gp.1 == g))
          ++ pids.map (fun p => (g, p))) } := by
  simp only [groupRepository.SetGroupPermissions]
  have h1 : db.groups.any (fun gr => gr.id == g) = true := by
    rcases hgrp with ⟨gr, hmem, hid⟩
    exact List.any_eq_true.mpr ⟨gr, hmem, by simp [hid]⟩
  have h2 : pids.all (fun p => db.permissions.any (fun q => q.id == p)) = true := by
    apply List.all_eq_true.mpr
    intro p hp
    rcases hall p hp with ⟨q, hqmem, hqid⟩
    exact List.any_eq_true.mpr ⟨q, hqmem, by simp [hqid]⟩
  have h3 : groupRepository.nodupB pids = true := (nodupB_iff pids).mpr hnd
  simp [h1, h2, h3]

theorem mem_adminStep (db : DB) (acc : List Nat) (n : String) (x : Nat)
    (hx : x ∈ acc) : x ∈ groupService.adminStep db acc n := by
  unfold groupService.adminStep
  cases groupRepository.GetPermissionByName db n with
  | none => exact hx
  | some perm =>
    by_cases hc : perm.id ∈ acc
    · simpa [hc] using hx
    · simp [hc]
      exact Or.inl hx

theorem mem_foldl_adminStep (db : DB) (names : List String) (acc : List Nat) (x : Nat)
    (hx : x ∈ acc) : x ∈ names.foldl (groupService.adminStep db) acc := by
  induction names generalizing acc with
  | nil => exact hx
  | cons n ns ih => exact ih _ (mem_adminStep db acc n x hx)

theorem resolved_mem_foldl_adminStep (db : DB) (perm : Permission) :
    ∀ (names : List String) (acc : List Nat) (n : String), n ∈ names →
      groupRepository.GetPermissionByName db n = some perm →
      perm.id ∈ names.foldl (groupService.adminStep db) acc := by
  intro names
  induction names with
  | nil => intro acc n hn _; cases hn
  | cons m ms ih =>
    intro acc n hn hres
    rw [List.foldl_cons]
    rcases List.mem_cons.mp hn with h | h
    · subst h
      apply mem_foldl_adminStep
      unfold groupService.adminStep
      rw [hres]
      by_cases hc : perm.id ∈ acc
      · simp [hc]
      · simp [hc]
    · exact ih _ n h hres

theorem nodup_adminStep (db : DB) (acc : List Nat) (n : String)
    (h : acc.Nodup) : (groupService.adminStep db acc n).Nodup := by
  unfold groupService.adminStep
  cases groupRepository.GetPermissionByName db n with
  | none => exact h
  | some perm =>
    by_cases hc : perm.id ∈ acc
    · simpa [hc] using h
    · simp [hc, List.nodup_append, h]

theorem nodup_foldl_adminStep (db : DB) (names : List String) (acc : List Nat)
    (h : acc.Nodup) : (names.foldl (groupService.adminStep db) acc).Nodup := by
  induction names generalizing acc with
  | nil => exact h
  | cons n ns ih => exact ih _ (nodup_adminStep db acc n h)

theorem valid_adminStep (db : DB) (acc : List Nat) (n : String)
    (h : ∀ x ∈ acc, ∃ q ∈ db.permissions, q.id = x) :
    ∀ x ∈ groupService.adminStep db acc n, ∃ q ∈ db.permissions, q.id = x := by
  unfold groupService.adminStep
  cases hres : groupRepository.GetPermissionByName db n with
  | none => exact h
  | some perm =>
    by_cases hc : perm.id ∈ acc
    · simpa [hc] using h
    · intro x hx
      simp [hc] at hx
      rcases hx with hx | hx
      · exact h x hx
      · subst hx
        exact ⟨perm, (getPermissionByName_mem db n perm hres).1, rfl⟩

theorem valid_foldl_adminStep (db : DB) (names : List String) (acc : List Nat)
    (h : ∀ x ∈ acc, ∃ q ∈ db.permissions, q.id = x) :
    ∀ x ∈ names.foldl (groupService.adminStep db) acc,
      ∃ q ∈ db.permissions, q.id = x := by
  induction names generalizing acc with
  | nil => exact h
  | cons n ns ih => exact ih _ (valid_adminStep db acc n h)

/-- C1 (amended): for every tenant namespace and every group named exactly
admin, a SetGroupPermissions call whose caller-supplied ids are pairwise
distinct and each reference an existing permission succeeds, and the stored
permission set of the group afterwards contains every system permission of
DefaultPermissions that resolves by name in that namespace.  The distinctness
and existence side conditions are forced by the counterexample: the bulk
insert of group_permissions is constrained by its composite primary key and
its foreign key to permissions, so a duplicated or dangling id aborts the
transaction and the call fails. -/
theorem C1_setGroupPermissions_admin_superset (db : DB) (groupId : Nat)
    (permissionIds : List Nat) (group : Group)
    (hg : groupRepository.GetGroup db groupId = some group)
    (hname : group.name = "admin")
    (hnd : permissionIds.Nodup)
    (hvalid : ∀ p ∈ permissionIds, ∃ q ∈ db.permissions, q.id = p) :
    ∃ db2, groupService.SetGroupPermissions db groupId permissionIds = Except.ok db2 ∧
      ∀ n ∈ DefaultPermissions, ∀ perm,
        groupRepository.GetPermissionByName db n = some perm →
        (groupId, perm.id) ∈ db2.groupPermissions := by
  have hmem := getGroup_mem db groupId group hg
  have hrepo := setRepo_ok db groupId
    (DefaultPermissions.foldl (groupService.adminStep db) permissionIds)
    ⟨group, hmem.1, hmem.2⟩
    (valid_foldl_adminStep db DefaultPermissions permissionIds hvalid)
    (nodup_foldl_adminStep db DefaultPermissions permissionIds hnd)
  refine ⟨{ db with groupPermissions :=
      (db.groupPermissions.filter (fun gp => !(gp.1 == groupId))
        ++ (DefaultPermissions.foldl (groupService.adminStep db) permissionIds).map
          (fun p => (groupId, p))) }, ?_, ?_⟩
  · unfold groupService.SetGroupPermissions
    rw [hg]
    simp only [hname, beq_self_eq_true, if_true]
    exact hrepo
  · intro n hn perm hres
    apply List.mem_append_right
    exact List.mem_map.mpr
      ⟨perm.id,
        resolved_mem_foldl_adminStep db perm DefaultPermissions permissionIds n hn hres,
        rfl⟩

/-- C1 counterexample: in a namespace whose admin group already holds all
system permissions, SetGroupPermissions on the admin group with the
caller-supplied list containing the dangling id 99 does not succeed: the bulk
insert violates the foreign key of group_permissions and the transaction is
rolled back, refuting the original claim that the call succeeds for every
caller-supplied list of permission ids. -/
theorem C1_counterexample :
    groupService.SetGroupPermissions dbAdmin 1 [99] =
      Except.error (SvcError.txFailure "failed to set group permissions") := by decide

theorem removeRepo_not_protected (db : DB) (g p : Nat) (m : String) :
    groupRepository.RemovePermissionFromGroup db g p ≠
      Except.error (SvcError.protectedResource m) := by
  rw [removeRepo_spec]
  by_cases hmem : (g, p) ∈ db.groupPermissions <;> simp [hmem]

theorem removeRepo_ok_iff (db : DB) (g p : Nat) :
    (∃ db2, groupRepository.RemovePermissionFromGroup db g p = Except.ok db2) ↔
      (g, p) ∈ db.groupPermissions := by
  rw [removeRepo_spec]
  by_cases hmem : (g, p) ∈ db.groupPermissions <;> simp [hmem]

theorem svcRemove_notAdmin (db : DB) (g p : Nat) (group : Group)
    (hg : groupRepository.GetGroup db g = some group) (hadm : group.name ≠ "admin") :
    groupService.RemovePermissionFromGroup db g p =
      groupRepository.RemovePermissionFromGroup db g p := by
  unfold groupService.RemovePermissionFromGroup
  rw [hg]
  have hb : (group.name == "admin") = false := beq_eq_false_iff_ne.mpr hadm
  simp [hb]

theorem svcRemove_admin_noPerm (db : DB) (g p : Nat) (group : Group)
    (hg : groupRepository.GetGroup db g = some group) (hadm : group.name = "admin")
    (hperm : groupRepository.GetPermission db p = none) :
    groupService.RemovePermissionFromGroup db g p =
      Except.error (SvcError.notFound "failed to get permission details") := by
  unfold groupService.RemovePermissionFromGroup
  rw [hg]
  simp [hadm, hperm]

theorem svcRemove_admin_sys (db : DB) (g p : Nat) (group : Group) (perm : Permission)
    (hg : groupRepository.GetGroup db g = some group) (hadm : group.name = "admin")
    (hperm : groupRepository.GetPermission db p = some perm)
    (hsys : perm.name ∈ DefaultPermissions) :
    groupService.RemovePermissionFromGroup db g p =
      Except.error (SvcError.protectedResource
        ("cannot remove system permission " ++ perm.name ++ " from admin group")) := by
  unfold groupService.RemovePermissionFromGroup
  rw [hg]
  have hc : DefaultPermissions.contains perm.name = true := List.elem_iff.mpr hsys
  simp only [hadm, hperm, hc, beq_self_eq_true, if_true]

theorem svcRemove_admin_nonSys (db : DB) (g p : Nat) (group : Group) (perm : Permission)
    (hg : groupRepository.GetGroup db g = some group) (hadm : group.name = "admin")
    (hperm : groupRepository.GetPermission db p = some perm)
    (hsys : perm.name ∉ DefaultPermissions) :
    groupService.RemovePermissionFromGroup db g p =
      groupRepository.RemovePermissionFromGroup db g p := by
  unfold groupService.RemovePermissionFromGroup
  rw [hg]
  have hc : DefaultPermissions.contains perm.name = false := by
    simp [List.elem_iff, hsys]
  simp only [hadm, hperm, hc, beq_self_eq_true, if_true, Bool.false_eq_true, if_false]

/-- C2 (amended): RemovePermissionFromGroup fails with a ProtectedResource
error exactly when the target group is named admin and the permission
resolves to a system-permission name.  When the protection does not trigger,
the removal succeeds precisely when the pair is currently granted: removing a
pair that is not granted fails with a not-found error, which is the
correction the counterexample forces on the original claim that every
non-protected removal succeeds. -/
theorem C2_removePermission_protected_iff (db : DB) (g p : Nat)
    (group : Group) (hg : groupRepository.GetGroup db g = some group) :
    ((∃ m, groupService.RemovePermissionFromGroup db g p =
        Except.error (SvcError.protectedResource m)) ↔
      (group.name = "admin" ∧ ∃ perm, groupRepository.GetPermission db p = some perm ∧
        perm.name ∈ DefaultPermissions))
    ∧ (group.name ≠ "admin" →
        ((∃ db2, groupService.RemovePermissionFromGroup db g p = Except.ok db2) ↔
          (g, p) ∈ db.groupPermissions))
    ∧ (∀ perm, group.name = "admin" →
        groupRepository.GetPermission db p = some perm →
        perm.name ∉ DefaultPermissions →
        ((∃ db2, groupService.RemovePermissionFromGroup db g p = Except.ok db2) ↔
          (g, p) ∈ db.groupPermissions)) := by
  by_cases hadm : group.name = "admin"
  · cases hperm : groupRepository.GetPermission db p with
    | none =>
      rw [svcRemove_admin_noPerm db g p group hg hadm hperm]
      refine ⟨?_, ?_, ?_⟩
      · constructor
        · rintro ⟨m, hm⟩
          simp at hm
        · rintro ⟨-, perm, hsome, -⟩
          cases hsome
      · intro hne
        exact absurd hadm hne
      · intro perm _ hsome _
        cases hsome
    | some perm =>
      by_cases hsys : perm.name ∈ DefaultPermissions
      · rw [svcRemove_admin_sys db g p group perm hg hadm hperm hsys]
        refine ⟨?_, ?_, ?_⟩
        · constructor
          · intro _
            exact ⟨hadm, perm, rfl, hsys⟩
          · intro _
            exact ⟨"cannot remove system permission " ++ perm.name ++ " from admin group",
              rfl⟩
        · intro hne
          exact absurd hadm hne
        · intro perm2 _ hsome hns
          injection hsome with h
          subst h
          exact absurd hsys hns
      · rw [svcRemove_admin_nonSys db g p group perm hg hadm hperm hsys]
        refine ⟨?_, ?_, ?_⟩
        · constructor
          · rintro ⟨m, hm⟩
            exact absurd hm (removeRepo_not_protected db g p m)
          · rintro ⟨-, perm2, hsome, hsys2⟩
            injection hsome with h
            subst h
            exact absurd hsys2 hsys
        · intro hne
          exact absurd hadm hne
        · intro perm2 _ _ _
          exact removeRepo_ok_iff db g p
  · rw [svcRemove_notAdmin db g p group hg hadm]
    refine ⟨?_, ?_, ?_⟩
    · constructor
      · rintro ⟨m, hm⟩
        exact absurd hm (removeRepo_not_protected db g p m)
      · rintro ⟨ha, -⟩
        exact absurd ha hadm
    · intro _
      exact removeRepo_ok_iff db g p
    · intro perm2 ha _ _
      exact absurd ha hadm

/-- C2 counterexample: group 2 is named dev (not admin) and permission 1
exists, but the pair (2, 1) is not granted; the removal fails with a
not-found error instead of succeeding, refuting the original claim that every
removal other than a protected one succeeds. -/
theorem C2_counterexample :
    groupRepository.GetGroup dbDev 2 = some ⟨2, "dev"⟩ ∧
    groupService.RemovePermissionFromGroup dbDev 2 1 =
      Except.error (SvcError.notFound "permission not found in group") := by decide

theorem C2_removePermission_protected_iff_witness :
    groupRepository.GetGroup dbDel 1 = some ⟨1, "admin"⟩ ∧
    (((∃ m, groupService.RemovePermissionFromGroup dbDel 1 13 =
        Except.error (SvcError.protectedResource m)) ↔
      ((⟨1, "admin"⟩ : Group).name = "admin" ∧
        ∃ perm, groupRepository.GetPermission dbDel 13 = some perm ∧
          perm.name ∈ DefaultPermissions))
    ∧ ((⟨1, "admin"⟩ : Group).name ≠ "admin" →
        ((∃ db2, groupService.RemovePermissionFromGroup dbDel 1 13 = Except.ok db2) ↔
          (1, 13) ∈ dbDel.groupPermissions))
    ∧ (∀ perm, (⟨1, "admin"⟩ : Group).name = "admin" →
        groupRepository.GetPermission dbDel 13 = some perm →
        perm.name ∉ DefaultPermissions →
        ((∃ db2, groupService.RemovePermissionFromGroup dbDel 1 13 = Except.ok db2) ↔
          (1, 13) ∈ dbDel.groupPermissions))) :=
  ⟨by decide, C2_removePermission_protected_iff dbDel 1 13 ⟨1, "admin"⟩ (by decide)⟩

theorem C1_setGroupPermissions_admin_superset_witness :
    groupRepository.GetGroup dbAdmin 1 = some ⟨1, "admin"⟩ ∧
    (∃ db2, groupService.SetGroupPermissions dbAdmin 1 [] = Except.ok db2 ∧
      ∀ n ∈ DefaultPermissions, ∀ perm,
        groupRepository.GetPermissionByName dbAdmin n = some perm →
        (1, perm.id) ∈ db2.groupPermissions) :=
  ⟨by decide,
    C1_setGroupPermissions_admin_superset dbAdmin 1 [] ⟨1, "admin"⟩
      (by decide) rfl (by decide) (by simp)⟩

/-- C3: deleting a permission whose name is one of the fixed system-permission
names always fails with a ProtectedResource error, regardless of which groups
hold it (the deletion never consults group_permissions before the check), and
deleting an existing permission whose name is not a system-permission name
succeeds, the ON DELETE CASCADE of group_permissions removing any references. -/
theorem C3_deletePermission_system_protected (db : DB) (id : Nat) (perm : Permission)
    (hp : groupRepository.GetPermission db id = some perm) :
    (perm.name ∈ DefaultPermissions →
      groupService.DeletePermission db id =
        Except.error (SvcError.protectedResource
          ("cannot delete system permission " ++ perm.name)))
    ∧ (perm.name ∉ DefaultPermissions →
      groupService.DeletePermission db id =
        Except.ok { db with
          permissions := db.permissions.filter (fun q => !(q.id == id)),
          groupPermissions := db.groupPermissions.filter (fun gp => !(gp.2 == id)) }) := by
  have hmem := getPermission_mem db id perm hp
  constructor
  · intro hsys
    unfold groupService.DeletePermission
    rw [hp]
    have hc : DefaultPermissions.contains perm.name = true := List.elem_iff.mpr hsys
    simp only [hc, if_true]
  · intro hsys
    unfold groupService.DeletePermission
    rw [hp]
    have hc : DefaultPermissions.contains perm.name = false := by
      simp [List.elem_iff, hsys]
    have hex : db.permissions.any (fun q => q.id == id) = true :=
      List.any_eq_true.mpr ⟨perm, hmem.1, by simp [hmem.2]⟩
    simp only [hc, Bool.false_eq_true, if_false]
    unfold groupRepository.DeletePermission
    simp only [hex, if_true]

theorem C3_deletePermission_system_protected_witness :
    (⟨1, "user_view"⟩ : Permission).name ∈ DefaultPermissions ∧
    groupService.DeletePermission dbDel 1 =
      Except.error (SvcError.protectedResource
        ("cannot delete system permission " ++ "user_view")) ∧
    (⟨13, "custom_report"⟩ : Permission).name ∉ DefaultPermissions ∧
    (∃ db2, groupService.DeletePermission dbDel 13 = Except.ok db2) := by
  refine ⟨by decide, ?_, by decide, ?_⟩
  · exact (C3_deletePermission_system_protected dbDel 1 ⟨1, "user_view"⟩
      (by decide)).1 (by decide)
  · exact ⟨_, (C3_deletePermission_system_protected dbDel 13 ⟨13, "custom_report"⟩
      (by decide)).2 (by decide)⟩

theorem userHasPermissionRepo_iff (db : DB) (u p : Nat) :
    groupService.userHasPermissionRepo db u p = true ↔
      ∃ g, (u, g) ∈ db.userGroups ∧ (g, p) ∈ db.groupPermissions := by
  unfold groupService.userHasPermissionRepo
  simp only [List.any_eq_true, Bool.and_eq_true, beq_iff_eq]
  constructor
  · rintro ⟨⟨a, b⟩, hug, ha, ⟨⟨c, d⟩, hgp, hc, hd⟩⟩
    dsimp only at ha hc hd
    subst ha
    subst hd
    rw [hc] at hgp
    exact ⟨b, hug, hgp⟩
  · rintro ⟨g, hug, hgp⟩
    exact ⟨(u, g), hug, rfl, (g, p), hgp, rfl, rfl⟩

theorem userHasPermissionByNameRepo_iff (db : DB) (u : Nat) (name : String) :
    groupService.userHasPermissionByNameRepo db u name = true ↔
      ∃ g perm, (u, g) ∈ db.userGroups ∧ (g, perm.id) ∈ db.groupPermissions ∧
        perm ∈ db.permissions ∧ perm.name = name := by
  unfold groupService.userHasPermissionByNameRepo
  simp only [List.any_eq_true, Bool.and_eq_true, beq_iff_eq]
  constructor
  · rintro ⟨⟨a, b⟩, hug, ha, ⟨⟨c, d⟩, hgp, hc, ⟨perm, hpm, hpid, hpname⟩⟩⟩
    dsimp only at ha hc hpid hpname
    subst ha
    rw [hc] at hgp
    rw [← hpid] at hgp
    exact ⟨b, perm, hug, hgp, hpm, hpname⟩
  · rintro ⟨g, perm, hug, hgp, hpm, hpname⟩
    exact ⟨(u, g), hug, rfl, (g, perm.id), hgp, rfl, perm, hpm, rfl, hpname⟩

/-- C8: UserHasPermission is true exactly when some group the user belongs to
is linked to the permission, one level deep with no negative permissions, and
the name-keyed variant is true exactly when such a linked permission carries
the requested name.  The repository-level check is modelled from the spec;
its implementation is not under src. -/
theorem C8_userHasPermission_iff (db : DB) (u p : Nat) (name : String)
    (hname : name ≠ "") :
    (groupService.UserHasPermission db u p = Except.ok true ↔
      ∃ g, (u, g) ∈ db.userGroups ∧ (g, p) ∈ db.groupPermissions)
    ∧ (groupService.UserHasPermissionByName db u name = Except.ok true ↔
      ∃ g perm, (u, g) ∈ db.userGroups ∧ (g, perm.id) ∈ db.groupPermissions ∧
        perm ∈ db.permissions ∧ perm.name = name) := by
  constructor
  · have hdef : groupService.UserHasPermission db u p =
        Except.ok (groupService.userHasPermissionRepo db u p) := rfl
    rw [hdef]
    simp only [Except.ok.injEq]
    exact userHasPermissionRepo_iff db u p
  · have hb : (name == "") = false := beq_eq_false_iff_ne.mpr hname
    unfold groupService.UserHasPermissionByName
    simp only [hb, Bool.false_eq_true, if_false, Except.ok.injEq]
    exact userHasPermissionByNameRepo_iff db u name

theorem C8_userHasPermission_iff_witness :
    ("user_view" : String) ≠ "" ∧
    ((groupService.UserHasPermission dbUser 7 5 = Except.ok true ↔
      ∃ g, (7, g) ∈ dbUser.userGroups ∧ (g, 5) ∈ dbUser.groupPermissions)
    ∧ (groupService.UserHasPermissionByName dbUser 7 "user_view" = Except.ok true ↔
      ∃ g perm, (7, g) ∈ dbUser.userGroups ∧ (g, perm.id) ∈ dbUser.groupPermissions ∧
        perm ∈ dbUser.permissions ∧ perm.name = "user_view")) :=
  ⟨by decide, C8_userHasPermission_iff dbUser 7 5 "user_view" (by decide)⟩

/-- C10: the admin protections are keyed on the exact, case-sensitive name
admin.  For a group with any other name, such as Admin with a capital A, a
granted system permission is removed with no ProtectedResource check, and
SetGroupPermissions stores exactly the caller-supplied set with no
system-permission auto-union. -/
theorem C10_admin_checks_case_sensitive (db : DB) (g p : Nat) (pids : List Nat)
    (group : Group)
    (hg : groupRepository.GetGroup db g = some group)
    (hn : group.name ≠ "admin")
    (hmem : (g, p) ∈ db.groupPermissions)
    (hnd : pids.Nodup)
    (hvalid : ∀ q ∈ pids, ∃ r ∈ db.permissions, r.id = q) :
    (∃ db2, groupService.RemovePermissionFromGroup db g p = Except.ok db2 ∧
      (g, p) ∉ db2.groupPermissions)
    ∧ (∃ db3, groupService.SetGroupPermissions db g pids = Except.ok db3 ∧
      ∀ q, (g, q) ∈ db3.groupPermissions ↔ q ∈ pids) := by
  constructor
  · rw [svcRemove_notAdmin db g p group hg hn, removeRepo_spec, if_pos hmem]
    refine ⟨{ db with groupPermissions :=
        db.groupPermissions.filter (fun gp => !(gp.1 == g && gp.2 == p)) }, rfl, ?_⟩
    intro hcon
    have hpred := (List.mem_filter.mp hcon).2
    simp at hpred
  · have hgrp := getGroup_mem db g group hg
    have hrepo := setRepo_ok db g pids ⟨group, hgrp.1, hgrp.2⟩ hvalid hnd
    have hb : (group.name == "admin") = false := beq_eq_false_iff_ne.mpr hn
    refine ⟨{ db with groupPermissions :=
        (db.groupPermissions.filter (fun gp => !(gp.1 == g))
          ++ pids.map (fun q => (g, q))) }, ?_, ?_⟩
    · unfold groupService.SetGroupPermissions
      rw [hg]
      simp only [hb, Bool.false_eq_true, if_false]
      exact hrepo
    · intro q
      simp [List.mem_append, List.mem_filter, List.mem_map]

theorem C10_admin_checks_case_sensitive_witness :
    groupRepository.GetGroup dbCaps 2 = some ⟨2, "Admin"⟩ ∧
    (⟨2, "Admin"⟩ : Group).name ≠ "admin" ∧
    (2, 1) ∈ dbCaps.groupPermissions ∧
    ([2, 3] : List Nat).Nodup ∧
    ((∃ db2, groupService.RemovePermissionFromGroup dbCaps 2 1 = Except.ok db2 ∧
        (2, 1) ∉ db2.groupPermissions)
    ∧ (∃ db3, groupService.SetGroupPermissions dbCaps 2 [2, 3] = Except.ok db3 ∧
        ∀ q, (2, q) ∈ db3.groupPermissions ↔ q ∈ [2, 3])) := by
  refine ⟨by decide, by decide, by decide, by decide, ?_⟩
  exact C10_admin_checks_case_sensitive dbCaps 2 1 [2, 3] ⟨2, "Admin"⟩
    (by decide) (by decide) (by decide) (by decide) (by decide)

/-- C4: round-trip — validating the access token issued for (u, t), at any
time inside its validity window and under the same configuration (same access
secret and issuer), succeeds and returns claims whose user id is u and whose
tenant id is t. -/
theorem C4_access_roundTrip (cfg : PublicJWTConfig) (u t tIss tVal : Int)
    (h1 : tIss ≤ tVal) (h2 : tVal < tIss + cfg.AccessExpire) :
    ∃ claims, AuthService.ValidateAccessToken cfg tVal
        (AuthService.generateAccessToken cfg tIss u t) = Except.ok claims ∧
      claims.UserID = u ∧ claims.TenantID = t := by
  have hval : AuthService.ValidateAccessToken cfg tVal
      (AuthService.generateAccessToken cfg tIss u t) =
      Except.ok (JwtClaims.mk u t cfg.AccessIssuer tIss (tIss + cfg.AccessExpire) tIss) := by
    unfold AuthService.ValidateAccessToken AuthService.generateAccessToken signHS256
    dsimp only
    rw [if_neg (by decide)]
    rw [if_neg (by simp)]
    rw [if_neg (by omega)]
    rw [if_neg (by omega)]
    rw [if_neg (by simp)]
  exact ⟨_, hval, rfl, rfl⟩

theorem C4_access_roundTrip_witness :
    (0 : Int) ≤ 10 ∧ (10 : Int) < 0 + cfgTok.AccessExpire ∧
    (∃ claims, AuthService.ValidateAccessToken cfgTok 10
        (AuthService.generateAccessToken cfgTok 0 7 3) = Except.ok claims ∧
      claims.UserID = 7 ∧ claims.TenantID = 3) :=
  ⟨by decide, by decide, C4_access_roundTrip cfgTok 7 3 0 10 (by decide) (by decide)⟩

/-- C5: with distinct signing secrets and distinct issuer strings, an access
token never validates against the refresh secret and issuer, and a refresh
token never validates against the access ones: validation always returns a
bad-signature or wrong-issuer error and never succeeds. -/
theorem C5_cross_class_rejection (cfg : PublicJWTConfig) (u t tIss tVal : Int)
    (hsec : cfg.AccessSecretKey ≠ cfg.RefreshSecretKey)
    (_hiss : cfg.AccessIssuer ≠ cfg.RefreshIssuer) :
    (AuthService.ValidateRefreshToken cfg tVal
        (AuthService.generateAccessToken cfg tIss u t) =
          Except.error TokenErr.badSignature ∨
      AuthService.ValidateRefreshToken cfg tVal
        (AuthService.generateAccessToken cfg tIss u t) =
          Except.error TokenErr.wrongIssuer)
    ∧ (AuthService.ValidateAccessToken cfg tVal
        (AuthService.generateRefreshToken cfg tIss u t) =
          Except.error TokenErr.badSignature ∨
      AuthService.ValidateAccessToken cfg tVal
        (AuthService.generateRefreshToken cfg tIss u t) =
          Except.error TokenErr.wrongIssuer) := by
  have hsec2 : cfg.RefreshSecretKey ≠ cfg.AccessSecretKey := fun h => hsec h.symm
  constructor
  · left
    unfold AuthService.ValidateRefreshToken AuthService.generateAccessToken signHS256
    dsimp only
    rw [if_neg (by decide)]
    rw [if_pos (by simp [Prod.mk.injEq, hsec])]
  · left
    unfold AuthService.ValidateAccessToken AuthService.generateRefreshToken signHS256
    dsimp only
    rw [if_neg (by decide)]
    rw [if_pos (by simp [Prod.mk.injEq, hsec2])]

theorem C5_cross_class_rejection_witness :
    cfgTok.AccessSecretKey ≠ cfgTok.RefreshSecretKey ∧
    cfgTok.AccessIssuer ≠ cfgTok.RefreshIssuer ∧
    ((AuthService.ValidateRefreshToken cfgTok 10
        (AuthService.generateAccessToken cfgTok 0 7 3) =
          Except.error TokenErr.badSignature ∨
      AuthService.ValidateRefreshToken cfgTok 10
        (AuthService.generateAccessToken cfgTok 0 7 3) =
          Except.error TokenErr.wrongIssuer)
    ∧ (AuthService.ValidateAccessToken cfgTok 10
        (AuthService.generateRefreshToken cfgTok 0 7 3) =
          Except.error TokenErr.badSignature ∨
      AuthService.ValidateAccessToken cfgTok 10
        (AuthService.generateRefreshToken cfgTok 0 7 3) =
          Except.error TokenErr.wrongIssuer)) :=
  ⟨by decide, by decide, C5_cross_class_rejection cfgTok 7 3 0 10 (by decide) (by decide)⟩

/-- C9: an access token issued at time 100 for user 7 and tenant 3, under a
configuration whose access lifetime is one time unit, is rejected as expired
when validated two units later, at time 102. -/
theorem C9_access_expiry :
    AuthService.ValidateAccessToken cfgOneSecond 102
      (AuthService.generateAccessToken cfgOneSecond 100 7 3) =
        Except.error TokenErr.expired := by decide

theorem mem_insertIfAbsent (s : String) (l : List String) :
    s ∈ DBManager.insertIfAbsent s l := by
  unfold DBManager.insertIfAbsent
  by_cases h : s ∈ l
  · simp [h]
  · simp [h]

/-- C6 (amended): the helper-routine creation inside CreateSchema is
all-or-nothing — on every non-ok outcome the routine set is exactly what it
was before the call — and on an ok outcome both the namespace and its routine
exist.  The original both-or-neither claim over namespace and routine
together fails, because the namespace-create statement commits before the
transaction begins: a failure during the helper-routine creation leaves the
namespace present without its routine (see the counterexample). -/
theorem C6_createSchema_routine_atomic (st : DBManager.SchemaState)
    (o : DBManager.StepOracle) (s : String) :
    ((DBManager.CreateSchema st o s).1 = DBManager.CreateSchemaResult.ok ∧
      s ∈ (DBManager.CreateSchema st o s).2.schemas ∧
      s ∈ (DBManager.CreateSchema st o s).2.routines)
    ∨ ((DBManager.CreateSchema st o s).1 ≠ DBManager.CreateSchemaResult.ok ∧
      (DBManager.CreateSchema st o s).2.routines = st.routines) := by
  obtain ⟨a, b, c, d, e, f⟩ := o
  unfold DBManager.CreateSchema
  cases a <;> cases b <;> cases c <;> cases d <;> cases e <;> cases f <;>
    simp [mem_insertIfAbsent]

/-- C6 counterexample: from a fresh state, when every step succeeds except
the helper-routine statement, CreateSchema returns an error yet leaves the
acme namespace created without its helper routine: the provisioning state is
partial, refuting the claimed both-or-neither invariant. -/
theorem C6_counterexample :
    (DBManager.CreateSchema freshState routineFails "acme").1 ≠
      DBManager.CreateSchemaResult.ok ∧
    "acme" ∈ (DBManager.CreateSchema freshState routineFails "acme").2.schemas ∧
    "acme" ∉ (DBManager.CreateSchema freshState routineFails "acme").2.routines := by
  decide

/-- C7: refuted by the code — when the helper-routine statement inside the
transaction fails, CreateSchema returns an error without calling conn.Release
(only tx.Rollback is deferred), so the number of acquired-but-unreleased pool
connections grows by one across the failed call, contradicting the
release-on-every-exit-path contract. -/
theorem C7_createSchema_leaks_connection :
    (DBManager.CreateSchema freshState routineFails "acme").1 ≠
      DBManager.CreateSchemaResult.ok ∧
    (DBManager.CreateSchema freshState routineFails "acme").2.openConns =
      freshState.openConns + 1 := by decide

end Saas
